import Mathlib

/-!
Verification of the fetch-with-backoff-and-pagination core of the
`ai-hedge-fund` data-tools module (`src/tools/api.py`) and the
Hong-Kong alternate-market client (`src/tools/futu_api.py`).

The Python code is shallowly embedded:
* HTTP responses are supplied by an oracle (a function from the attempt
  index, resp. the request index, to the response), so theorems quantify
  over every behaviour of the remote API;
* the in-process cache is an explicit association list threaded through
  the functions;
* the unbounded `while True` pagination loop is given an explicit fuel
  parameter; running out of fuel is reported as `FetchResult.outOfFuel`,
  so non-termination of the Python loop is expressible as
  "out of fuel for every fuel value";
* Python `None` for `start_date` is `Option.none`;
* Python string comparison (used on "YYYY-MM-DD" strings) is embedded as
  lexicographic comparison of the code-point lists.
-/

/-- Lexicographic strict comparison of char lists, mirroring Python `<`
on strings (code-point lexicographic order). -/
def charListLt : List Char → List Char → Bool
  | [], [] => false
  | [], _ :: _ => true
  | _ :: _, [] => false
  | a :: as, b :: bs => if a < b then true else if b < a then false else charListLt as bs

/-- Python `a < b` on strings. -/
def pyStrLt (a b : String) : Bool :=
  charListLt a.data b.data

/-- Python `a <= b` on strings (total order, so `a <= b  ↔  not (b < a)`). -/
def pyStrLe (a b : String) : Bool :=
  !(pyStrLt b a)

/-- Binary step of Python `min(...)` on strings: keep the current value
unless the new one is strictly smaller. -/
def pyMinStr (acc x : String) : String :=
  if pyStrLt x acc then x else acc

/-- Python `min(dateOf r for r in (r :: rs))`: fold of `pyMinStr` over the
date fields of a non-empty record list. -/
def pyMinBy (dateOf : α → String) (r : α) (rs : List α) : String :=
  rs.foldl (fun acc x => pyMinStr acc (dateOf x)) (dateOf r)

/-- Python `s.split("T")[0]`: the part of `s` before the first `'T'`. -/
def truncT (s : String) : String :=
  String.mk (s.data.takeWhile (fun c => c != 'T'))

/-- `min(... date field ...).split("T")[0]` over a page of records
(the empty-page case is never reached by the loop, which checks
emptiness first). -/
def minTrunc (dateOf : α → String) : List α → String
  | [] => ""
  | r :: rs => truncT (pyMinBy dateOf r rs)

/-- A `requests.Response` as observed by `_make_api_request` and the
collectors before JSON parsing: status code and body text. -/
structure Resp where
  status : Nat
  text : String
deriving DecidableEq, Repr

/-- Embedding of the retry loop of `_make_api_request`
(`for attempt in range(max_retries + 1)`), recursing on the number of
retries still permitted; `attempt` is the current attempt index and the
oracle `responses` gives the response of each attempt.  Returns the
response together with the list of back-off sleep durations performed
(`time.sleep(60 + 30 * attempt)` before every retry). -/
def apiRequestLoop (responses : Nat → Resp) (attempt : Nat) : Nat → Resp × List Nat
  | 0 => (responses attempt, [])
  | remaining + 1 =>
    let resp := responses attempt
    if resp.status = 429 then
      let rest := apiRequestLoop responses (attempt + 1) remaining
      (rest.1, (60 + 30 * attempt) :: rest.2)
    else
      (resp, [])

/-- `_make_api_request(url, headers, method, json_data, max_retries)`:
the request/backoff wrapper.  The URL/headers/method are irrelevant to
the control flow and are abstracted into the `responses` oracle. -/
def _make_api_request (responses : Nat → Resp) (max_retries : Nat := 3) : Resp × List Nat :=
  apiRequestLoop responses 0 max_retries

/-- One parsed API page as seen by the pagination loop: the HTTP status,
the raw body text (used in error messages) and the parsed records. -/
structure ApiResponse (α : Type) where
  status : Nat
  text : String
  records : List α
deriving Repr

/-- The in-process cache: an association list from composite string keys
to serialized record lists (`cache.set_*` prepends, `cache.get_*` is a
lookup). -/
abbrev Cache (α : Type) := List (String × List α)

/-- `_cache.set_<kind>(key, value)`. -/
def cacheSet (c : Cache α) (k : String) (v : List α) : Cache α :=
  (k, v) :: c

/-- The value bound by the Python walrus test
`if cached_data := _cache.get_<kind>(cache_key):` — a hit only when the
stored value is truthy, i.e. present and non-empty. -/
def hitData (c : Cache α) (k : String) : Option (List α) :=
  match c.lookup k with
  | some l => if l.isEmpty then none else some l
  | none => none

/-- The composite cache key
`f"{ticker}_{start_date or 'none'}_{end_date}_{limit}"` used by
`get_insider_trades` and `get_company_news`. -/
def cacheKey (ticker : String) (startDate : Option String) (endDate : String) (limit : Nat) : String :=
  ticker ++ "_" ++ startDate.getD "none" ++ "_" ++ endDate ++ "_" ++ toString limit

/-- The message of the exception raised on a non-200 response:
`f"Error fetching data: {ticker} - {response.status_code} - {response.text}"`. -/
def errMsg (ticker : String) (status : Nat) (text : String) : String :=
  "Error fetching data: " ++ ticker ++ " - " ++ toString status ++ " - " ++ text

/-- Result of one run of the pagination loop: the accumulated records,
a raised exception's message, or fuel exhaustion (the Python loop is
still running). -/
inductive FetchResult (α : Type) where
  | ok : List α → FetchResult α
  | err : String → FetchResult α
  | outOfFuel : FetchResult α
deriving DecidableEq, Repr

/-- The `while True:` pagination loop shared by `get_insider_trades`
(`dateOf := filing_date`) and `get_company_news` (`dateOf := date`).
`i` is the index of the next request in the `oracle`,
`currentEndDate` the upper-bound date parameter of the next request and
`acc` the records accumulated so far.  Besides the result it returns the
list of upper-bound date parameters of the requests it issued. -/
def paginateLoop (dateOf : α → String) (oracle : Nat → ApiResponse α)
    (ticker : String) (startDate : Option String) (limit : Nat) :
    Nat → Nat → String → List α → FetchResult α × List String
  | 0, _, currentEndDate, _ =>
    (.outOfFuel, [])
  | fuel + 1, i, currentEndDate, acc =>
    let resp := oracle i
    if resp.status ≠ 200 then
      (.err (errMsg ticker resp.status resp.text), [currentEndDate])
    else
      match resp.records with
      | [] => (.ok acc, [currentEndDate])
      | r :: rs =>
        let acc2 := acc ++ (r :: rs)
        match startDate with
        | none => (.ok acc2, [currentEndDate])
        | some sd =>
          if (r :: rs).length < limit then
            (.ok acc2, [currentEndDate])
          else
            let nextEnd := minTrunc dateOf (r :: rs)
            if pyStrLe nextEnd sd then
              (.ok acc2, [currentEndDate])
            else
              let rest := paginateLoop dateOf oracle ticker startDate limit fuel (i + 1) nextEnd acc2
              (rest.1, currentEndDate :: rest.2)

/-- The stopping condition of one iteration of `paginateLoop`, a function
of the fixed parameters and the response alone: non-200 status, empty
page, absent `start_date`, short page, or truncated minimum date at or
below `start_date`.  The loop continues past a response iff this is
`false`. -/
def stopCond (dateOf : α → String) (startDate : Option String) (limit : Nat)
    (resp : ApiResponse α) : Bool :=
  if resp.status ≠ 200 then true
  else
    match resp.records with
    | [] => true
    | r :: rs =>
      match startDate with
      | none => true
      | some sd =>
        if (r :: rs).length < limit then true
        else pyStrLe (minTrunc dateOf (r :: rs)) sd

/-- The observable outcome of one collector call: the returned records
(or raised error / exhausted fuel), the cache after the call, and the
upper-bound date parameters of the requests issued. -/
structure CollectOutcome (α : Type) where
  result : FetchResult α
  cache : Cache α
  requests : List String
deriving Repr

/-- The fetch-and-cache part of a collector call, entered on a cache
miss: run the pagination loop from `end_date`; on success cache the
accumulated records unless they are empty (`if not all_trades: return []`);
a raised error or fuel exhaustion leaves the cache unchanged. -/
def collectFetch (dateOf : α → String) (oracle : Nat → ApiResponse α)
    (ticker endDate : String) (startDate : Option String) (limit : Nat)
    (cache : Cache α) (fuel : Nat) : CollectOutcome α :=
  let key := cacheKey ticker startDate endDate limit
  let run := paginateLoop dateOf oracle ticker startDate limit fuel 0 endDate []
  match run.1 with
  | .ok acc =>
    if acc.isEmpty then ⟨.ok acc, cache, run.2⟩
    else ⟨.ok acc, cacheSet cache key acc, run.2⟩
  | .err m => ⟨.err m, cache, run.2⟩
  | .outOfFuel => ⟨.outOfFuel, cache, run.2⟩

/-- A collector call (`get_insider_trades` / `get_company_news`):
check the cache under the composite key and return the deserialized
entry on a hit with no requests issued, otherwise fetch. -/
def collectGeneric (dateOf : α → String) (oracle : Nat → ApiResponse α)
    (ticker endDate : String) (startDate : Option String) (limit : Nat)
    (cache : Cache α) (fuel : Nat) : CollectOutcome α :=
  match hitData cache (cacheKey ticker startDate endDate limit) with
  | some cached => ⟨.ok cached, cache, []⟩
  | none => collectFetch dateOf oracle ticker endDate startDate limit cache fuel

/-- An insider-trade record; only the `filing_date` field drives the
pagination logic (the schema layer is an external collaborator). -/
structure InsiderTrade where
  filing_date : String
deriving DecidableEq, Repr

/-- A company-news record; only the `date` field drives the pagination
logic. -/
structure CompanyNews where
  date : String
deriving DecidableEq, Repr

/-- `get_insider_trades(ticker, end_date, start_date, limit)`:
the paginated collector over insider trades, paging on `filing_date`. -/
def get_insider_trades (oracle : Nat → ApiResponse InsiderTrade)
    (ticker endDate : String) (startDate : Option String) (limit : Nat)
    (cache : Cache InsiderTrade) (fuel : Nat) : CollectOutcome InsiderTrade :=
  collectGeneric (fun t => t.filing_date) oracle ticker endDate startDate limit cache fuel

/-- `get_company_news(ticker, end_date, start_date, limit)`:
the paginated collector over company news, paging on `date`. -/
def get_company_news (oracle : Nat → ApiResponse CompanyNews)
    (ticker endDate : String) (startDate : Option String) (limit : Nat)
    (cache : Cache CompanyNews) (fuel : Nat) : CollectOutcome CompanyNews :=
  collectGeneric (fun n => n.date) oracle ticker endDate startDate limit cache fuel

/-- `sub` occurs as a contiguous substring of `s`. -/
def containsSub (s sub : String) : Prop :=
  ∃ p q, s = p ++ sub ++ q

/-- Python `s.isdigit()` (false on the empty string). -/
def pyIsDigit (s : String) : Bool :=
  s.data.length != 0 && s.data.all Char.isDigit

/-- Python `s.endswith(suffixStr)` via the code-point lists. -/
def pyEndsWith (s suffixStr : String) : Bool :=
  suffixStr.data.isSuffixOf s.data

/-- `_is_hk_stock(ticker)`: ends with `".HK"`, or is all digits of
length 4 or 5. -/
def _is_hk_stock (ticker : String) : Bool :=
  if pyEndsWith ticker ".HK" then true
  else if pyIsDigit ticker && (ticker.length == 4 || ticker.length == 5) then true
  else false

/-- The environment of one `get_hk_prices` call: whether
`ft.OpenQuoteContext(...)` succeeds, whether `request_history_kline`
returns `RET_OK`, and the rows of the returned frame (`α` abstracts the
row/price payload, whose field-by-field conversion is out of scope). -/
structure FutuEnv (α : Type) where
  connectOk : Bool
  klineRet : Bool
  klineRows : List α
deriving Repr

/-- The body of the `try:` block of `get_hk_prices` (after the cache
check): connecting, fetching the k-line frame, converting rows, caching.
`Except.error` is an exception escaping the block — either the
`FutuAPIClient._connect` re-raise or the `ret != RET_OK` raise. -/
def get_hk_prices_body (env : FutuEnv α) (ticker start_date end_date : String)
    (cache : Cache α) : Except String (List α × Cache α) :=
  let key := "hk_" ++ ticker ++ "_" ++ start_date ++ "_" ++ end_date
  if !env.connectOk then .error "connect failed"
  else if !env.klineRet then .error "hk kline fetch failed"
  else if env.klineRows.isEmpty then .ok ([], cache)
  else .ok (env.klineRows, cacheSet cache key env.klineRows)

/-- `get_hk_prices(ticker, start_date, end_date)`: cache check, then the
`try:` body, with `except Exception: return []` converting every
escaping exception — including the connection failure — into an empty
result that leaves the cache unchanged. -/
def get_hk_prices (env : FutuEnv α) (ticker start_date end_date : String)
    (cache : Cache α) : List α × Cache α :=
  let key := "hk_" ++ ticker ++ "_" ++ start_date ++ "_" ++ end_date
  match hitData cache key with
  | some cached => (cached, cache)
  | none =>
    match get_hk_prices_body env ticker start_date end_date cache with
    | .ok r => r
    | .error _ => ([], cache)

/-- `get_hk_market_cap(ticker, end_date)`: prints a notice and returns
`None` on every input. -/
def get_hk_market_cap (ticker end_date : String) : Option Float :=
  none

/-- `get_market_cap(ticker, end_date)`: route Hong-Kong tickers to
`get_hk_market_cap` when the futu module is available (raise when it is
not); the non-HK branch (company-facts / financial-metrics lookup) is
abstracted into the `usFetch` oracle, which the HK claims never reach. -/
def get_market_cap (futuAvailable : Bool) (usFetch : String → String → Option Float)
    (ticker end_date : String) : Except String (Option Float) :=
  if _is_hk_stock ticker then
    if futuAvailable then .ok (get_hk_market_cap ticker end_date)
    else .error "futu api unavailable"
  else .ok (usFetch ticker end_date)

/-! ## Step lemmas for the pagination loop -/

theorem bool_false_of_not_true {b : Bool} (h : ¬ b = true) : b = false := by
  cases b <;> simp_all

/-- A step whose response has `stopCond` returns immediately: its request
log is just the current cursor and its result is not fuel exhaustion. -/
theorem paginateLoop_succ_stop {α : Type} {dateOf : α → String} {oracle : Nat → ApiResponse α}
    {ticker : String} {startDate : Option String} {limit : Nat}
    {fuel i : Nat} {cur : String} {acc : List α}
    (h : stopCond dateOf startDate limit (oracle i) = true) :
    (paginateLoop dateOf oracle ticker startDate limit (fuel + 1) i cur acc).2 = [cur] ∧
    (paginateLoop dateOf oracle ticker startDate limit (fuel + 1) i cur acc).1 ≠ .outOfFuel := by
  simp only [stopCond] at h
  simp only [paginateLoop]
  by_cases hs : (oracle i).status = 200
  · simp only [hs, ne_eq, not_true_eq_false, if_false, Bool.false_eq_true, ite_false] at h ⊢
    rcases hr : (oracle i).records with _ | ⟨r, rs⟩
    · simp
    · simp only [hr] at h
      rcases startDate with _ | sd
      · simp
      · simp at h
        by_cases hl : rs.length + 1 < limit
        · simp [hl]
        · rcases h with h | h
          · exact absurd h hl
          · simp [hl, h]
  · simp [hs]

/-- A step whose response lacks `stopCond` recurses with the truncated
minimum date as the new cursor, the page appended to the accumulator,
and the current cursor prepended to the recursive request log. -/
theorem paginateLoop_succ_continue {α : Type} {dateOf : α → String} {oracle : Nat → ApiResponse α}
    {ticker : String} {startDate : Option String} {limit : Nat}
    {fuel i : Nat} {cur : String} {acc : List α}
    (h : stopCond dateOf startDate limit (oracle i) = false) :
    paginateLoop dateOf oracle ticker startDate limit (fuel + 1) i cur acc =
      ((paginateLoop dateOf oracle ticker startDate limit fuel (i + 1)
          (minTrunc dateOf (oracle i).records) (acc ++ (oracle i).records)).1,
       cur :: (paginateLoop dateOf oracle ticker startDate limit fuel (i + 1)
          (minTrunc dateOf (oracle i).records) (acc ++ (oracle i).records)).2) := by
  simp only [stopCond] at h
  by_cases hs : (oracle i).status = 200
  · simp only [hs, ne_eq, not_true_eq_false, if_false, Bool.false_eq_true, ite_false] at h
    rcases hr : (oracle i).records with _ | ⟨r, rs⟩
    · simp [hr] at h
    · simp only [hr] at h
      rcases startDate with _ | sd
      · simp at h
      · simp at h
        have hl : ¬ rs.length + 1 < limit := by omega
        simp only [paginateLoop]
        simp [hs, hr, hl, h.2]
  · simp [hs] at h

/-- A non-200 response makes the step return the raised error message. -/
theorem paginateLoop_succ_err {α : Type} {dateOf : α → String} {oracle : Nat → ApiResponse α}
    {ticker : String} {startDate : Option String} {limit : Nat}
    {fuel i : Nat} {cur : String} {acc : List α}
    (hs : (oracle i).status ≠ 200) :
    paginateLoop dateOf oracle ticker startDate limit (fuel + 1) i cur acc =
      (.err (errMsg ticker (oracle i).status (oracle i).text), [cur]) := by
  simp [paginateLoop, hs]

/-- A non-200 response satisfies `stopCond`. -/
theorem stopCond_of_err {α : Type} {dateOf : α → String} {startDate : Option String}
    {limit : Nat} {resp : ApiResponse α} (hs : resp.status ≠ 200) :
    stopCond dateOf startDate limit resp = true := by
  simp [stopCond, hs]

/-- Without a `start_date`, every response satisfies `stopCond`. -/
theorem stopCond_none {α : Type} {dateOf : α → String} {limit : Nat}
    {resp : ApiResponse α} : stopCond dateOf none limit resp = true := by
  unfold stopCond
  split
  · rfl
  · rcases resp.records with _ | ⟨r, rs⟩ <;> rfl

/-- The request log of the loop is empty at fuel zero and otherwise
starts with the cursor it was entered with. -/
theorem paginateLoop_log_head {α : Type} {dateOf : α → String} {oracle : Nat → ApiResponse α}
    {ticker : String} {startDate : Option String} {limit : Nat}
    (fuel i : Nat) (cur : String) (acc : List α) :
    (paginateLoop dateOf oracle ticker startDate limit fuel i cur acc).2 = [] ∨
    ∃ rest, (paginateLoop dateOf oracle ticker startDate limit fuel i cur acc).2 = cur :: rest := by
  cases fuel with
  | zero => left; rfl
  | succ fuel =>
    right
    by_cases hstop : stopCond dateOf startDate limit (oracle i) = true
    · exact ⟨[], (paginateLoop_succ_stop hstop).1⟩
    · rw [paginateLoop_succ_continue (bool_false_of_not_true hstop)]
      exact ⟨_, rfl⟩

/-! ## Invariants of the pagination loop, by induction on fuel -/

/-- Cursor-advance invariant: whenever the loop issues a further request
after the one indexed `i + j`, that request's upper-bound date parameter
is the truncated minimum date of the page returned by request `i + j`. -/
theorem paginateLoop_log_get_succ {α : Type} {dateOf : α → String} {oracle : Nat → ApiResponse α}
    {ticker : String} {startDate : Option String} {limit : Nat} :
    ∀ (fuel i : Nat) (cur : String) (acc : List α) (j : Nat) (d : String),
      ((paginateLoop dateOf oracle ticker startDate limit fuel i cur acc).2).get? (j + 1) = some d →
      d = minTrunc dateOf (oracle (i + j)).records := by
  intro fuel
  induction fuel with
  | zero =>
    intro i cur acc j d h
    simp [paginateLoop] at h
  | succ fuel ih =>
    intro i cur acc j d h
    by_cases hstop : stopCond dateOf startDate limit (oracle i) = true
    · rw [(paginateLoop_succ_stop hstop).1] at h
      simp at h
    · rw [paginateLoop_succ_continue (bool_false_of_not_true hstop)] at h
      simp only [List.get?_cons_succ] at h
      cases j with
      | zero =>
        rcases @paginateLoop_log_head α dateOf oracle ticker startDate limit
            fuel (i + 1) (minTrunc dateOf (oracle i).records)
            (acc ++ (oracle i).records) with hnil | ⟨rest, hcons⟩
        · rw [hnil] at h; simp at h
        · rw [hcons] at h
          simp at h
          simpa using h.symm
      | succ j' =>
        have heq : i + (j' + 1) = (i + 1) + j' := by omega
        rw [heq]
        exact ih (i + 1) _ _ j' d h

/-- Termination invariant: if request `i + j` was issued and its response
satisfies `stopCond`, the loop makes no request after it. -/
theorem paginateLoop_stop_len {α : Type} {dateOf : α → String} {oracle : Nat → ApiResponse α}
    {ticker : String} {startDate : Option String} {limit : Nat} :
    ∀ (fuel i : Nat) (cur : String) (acc : List α) (j : Nat) (d : String),
      ((paginateLoop dateOf oracle ticker startDate limit fuel i cur acc).2).get? j = some d →
      stopCond dateOf startDate limit (oracle (i + j)) = true →
      ((paginateLoop dateOf oracle ticker startDate limit fuel i cur acc).2).length = j + 1 := by
  intro fuel
  induction fuel with
  | zero =>
    intro i cur acc j d h
    simp [paginateLoop] at h
  | succ fuel ih =>
    intro i cur acc j d h hstop
    by_cases hs : stopCond dateOf startDate limit (oracle i) = true
    · rw [(paginateLoop_succ_stop hs).1] at h ⊢
      cases j with
      | zero => rfl
      | succ j' => simp at h
    · rw [paginateLoop_succ_continue (bool_false_of_not_true hs)] at h ⊢
      cases j with
      | zero =>
        simp at hstop
        exact absurd hstop hs
      | succ j' =>
        simp only [List.get?_cons_succ] at h
        have heq : i + (j' + 1) = (i + 1) + j' := by omega
        rw [heq] at hstop
        have := ih (i + 1) _ _ j' d h hstop
        simp [this]

/-- Error propagation invariant: if request `i + j` was issued and its
response has a non-200 status, the loop's result is the raised error
carrying the ticker, the status code and the response body. -/
theorem paginateLoop_err_prop {α : Type} {dateOf : α → String} {oracle : Nat → ApiResponse α}
    {ticker : String} {startDate : Option String} {limit : Nat} :
    ∀ (fuel i : Nat) (cur : String) (acc : List α) (j : Nat) (d : String),
      ((paginateLoop dateOf oracle ticker startDate limit fuel i cur acc).2).get? j = some d →
      (oracle (i + j)).status ≠ 200 →
      (paginateLoop dateOf oracle ticker startDate limit fuel i cur acc).1 =
        .err (errMsg ticker (oracle (i + j)).status (oracle (i + j)).text) := by
  intro fuel
  induction fuel with
  | zero =>
    intro i cur acc j d h
    simp [paginateLoop] at h
  | succ fuel ih =>
    intro i cur acc j d h hs
    by_cases hstop : stopCond dateOf startDate limit (oracle i) = true
    · cases j with
      | zero =>
        simp only [Nat.add_zero] at hs
        rw [paginateLoop_succ_err hs]
        simp
      | succ j' =>
        rw [(paginateLoop_succ_stop hstop).1] at h
        simp at h
    · cases j with
      | zero =>
        simp only [Nat.add_zero] at hs
        exact absurd (stopCond_of_err hs) hstop
      | succ j' =>
        rw [paginateLoop_succ_continue (bool_false_of_not_true hstop)] at h ⊢
        simp only [List.get?_cons_succ] at h
        have heq : i + (j' + 1) = (i + 1) + j' := by omega
        rw [heq] at hs ⊢
        exact ih (i + 1) _ _ j' d h hs

/-- If no response in the stream ever satisfies `stopCond`, the loop
runs out of any amount of fuel: the Python loop never terminates. -/
theorem paginateLoop_no_stop {α : Type} {dateOf : α → String} {oracle : Nat → ApiResponse α}
    {ticker : String} {startDate : Option String} {limit : Nat}
    (hall : ∀ k, stopCond dateOf startDate limit (oracle k) = false) :
    ∀ (fuel i : Nat) (cur : String) (acc : List α),
      (paginateLoop dateOf oracle ticker startDate limit fuel i cur acc).1 = .outOfFuel := by
  intro fuel
  induction fuel with
  | zero => intro i cur acc; rfl
  | succ fuel ih =>
    intro i cur acc
    rw [paginateLoop_succ_continue (hall i)]
    exact ih (i + 1) _ _

/-- If the response to request `i + k` satisfies `stopCond`, fuel `k + 1`
suffices for the loop to finish. -/
theorem paginateLoop_stop_term {α : Type} {dateOf : α → String} {oracle : Nat → ApiResponse α}
    {ticker : String} {startDate : Option String} {limit : Nat} :
    ∀ (k i : Nat) (cur : String) (acc : List α),
      stopCond dateOf startDate limit (oracle (i + k)) = true →
      (paginateLoop dateOf oracle ticker startDate limit (k + 1) i cur acc).1 ≠ .outOfFuel := by
  intro k
  induction k with
  | zero =>
    intro i cur acc h
    simp only [Nat.add_zero] at h
    exact (paginateLoop_succ_stop h).2
  | succ k ih =>
    intro i cur acc h
    by_cases hstop : stopCond dateOf startDate limit (oracle i) = true
    · exact (paginateLoop_succ_stop hstop).2
    · rw [paginateLoop_succ_continue (bool_false_of_not_true hstop)]
      have heq : i + (k + 1) = (i + 1) + k := by omega
      rw [heq] at h
      exact ih (i + 1) _ _ h

/-- With at least one unit of fuel the loop issues at least one request. -/
theorem paginateLoop_log_ne_nil {α : Type} {dateOf : α → String} {oracle : Nat → ApiResponse α}
    {ticker : String} {startDate : Option String} {limit : Nat}
    {fuel i : Nat} {cur : String} {acc : List α} (hf : 1 ≤ fuel) :
    (paginateLoop dateOf oracle ticker startDate limit fuel i cur acc).2 ≠ [] := by
  cases fuel with
  | zero => omega
  | succ fuel =>
    by_cases hstop : stopCond dateOf startDate limit (oracle i) = true
    · rw [(paginateLoop_succ_stop hstop).1]; simp
    · rw [paginateLoop_succ_continue (bool_false_of_not_true hstop)]; simp

/-! ## Collector-level lemmas -/

/-- The fetch path returns the loop's result unchanged. -/
theorem collectFetch_result {α : Type} {dateOf : α → String} {oracle : Nat → ApiResponse α}
    {ticker endDate : String} {startDate : Option String} {limit : Nat}
    {cache : Cache α} {fuel : Nat} :
    (collectFetch dateOf oracle ticker endDate startDate limit cache fuel).result =
      (paginateLoop dateOf oracle ticker startDate limit fuel 0 endDate []).1 := by
  unfold collectFetch
  cases h : (paginateLoop dateOf oracle ticker startDate limit fuel 0 endDate []).1 with
  | ok acc => by_cases he : acc.isEmpty <;> simp [h, he]
  | err m => simp [h]
  | outOfFuel => simp [h]

/-- The fetch path reports the loop's request log unchanged. -/
theorem collectFetch_requests {α : Type} {dateOf : α → String} {oracle : Nat → ApiResponse α}
    {ticker endDate : String} {startDate : Option String} {limit : Nat}
    {cache : Cache α} {fuel : Nat} :
    (collectFetch dateOf oracle ticker endDate startDate limit cache fuel).requests =
      (paginateLoop dateOf oracle ticker startDate limit fuel 0 endDate []).2 := by
  unfold collectFetch
  cases h : (paginateLoop dateOf oracle ticker startDate limit fuel 0 endDate []).1 with
  | ok acc => by_cases he : acc.isEmpty <;> simp [h, he]
  | err m => simp [h]
  | outOfFuel => simp [h]

/-- The fetch path leaves the cache unchanged unless the loop finishes
with a non-empty accumulation. -/
theorem collectFetch_cache_unchanged {α : Type} {dateOf : α → String} {oracle : Nat → ApiResponse α}
    {ticker endDate : String} {startDate : Option String} {limit : Nat}
    {cache : Cache α} {fuel : Nat}
    (h : ∀ acc, (paginateLoop dateOf oracle ticker startDate limit fuel 0 endDate []).1 = .ok acc →
      acc = []) :
    (collectFetch dateOf oracle ticker endDate startDate limit cache fuel).cache = cache := by
  unfold collectFetch
  cases hr : (paginateLoop dateOf oracle ticker startDate limit fuel 0 endDate []).1 with
  | ok acc =>
    have : acc = [] := h acc hr
    simp [hr, this]
  | err m => simp [hr]
  | outOfFuel => simp [hr]

/-- The fetch path caches a non-empty accumulation under the composite key. -/
theorem collectFetch_cache_set {α : Type} {dateOf : α → String} {oracle : Nat → ApiResponse α}
    {ticker endDate : String} {startDate : Option String} {limit : Nat}
    {cache : Cache α} {fuel : Nat} {acc : List α}
    (h : (paginateLoop dateOf oracle ticker startDate limit fuel 0 endDate []).1 = .ok acc)
    (hne : acc ≠ []) :
    (collectFetch dateOf oracle ticker endDate startDate limit cache fuel).cache =
      cacheSet cache (cacheKey ticker startDate endDate limit) acc := by
  unfold collectFetch
  simp [h, hne]

/-- On a cache miss the collector is the fetch path. -/
theorem collectGeneric_miss {α : Type} {dateOf : α → String} {oracle : Nat → ApiResponse α}
    {ticker endDate : String} {startDate : Option String} {limit : Nat}
    {cache : Cache α} {fuel : Nat}
    (h : hitData cache (cacheKey ticker startDate endDate limit) = none) :
    collectGeneric dateOf oracle ticker endDate startDate limit cache fuel =
      collectFetch dateOf oracle ticker endDate startDate limit cache fuel := by
  unfold collectGeneric
  rw [h]

/-- On a cache hit the collector returns the deserialized entry with no
requests and an unchanged cache. -/
theorem collectGeneric_hit {α : Type} {dateOf : α → String} {oracle : Nat → ApiResponse α}
    {ticker endDate : String} {startDate : Option String} {limit : Nat}
    {cache : Cache α} {fuel : Nat} {lst : List α}
    (h : hitData cache (cacheKey ticker startDate endDate limit) = some lst) :
    collectGeneric dateOf oracle ticker endDate startDate limit cache fuel =
      ⟨.ok lst, cache, []⟩ := by
  unfold collectGeneric
  rw [h]

/-- A fresh entry is a (truthy) hit. -/
theorem hitData_cacheSet {α : Type} {cache : Cache α} {k : String} {v : List α} (h : v ≠ []) :
    hitData (cacheSet cache k v) k = some v := by
  unfold hitData cacheSet
  simp [List.lookup, h]

/-! ## Request-executor characterization -/

/-- Full characterization of the retry loop: if the first `k` attempts
from `attempt` return 429 and the run stops at attempt `attempt + k`
(non-429 response, or no retries left), the loop returns that attempt's
response and sleeps `60 + 30 * m` seconds after each 429 attempt `m`. -/
theorem apiRequestLoop_spec (responses : Nat → Resp) :
    ∀ (k attempt remaining : Nat), k ≤ remaining →
      (∀ m, m < k → (responses (attempt + m)).status = 429) →
      ((responses (attempt + k)).status ≠ 429 ∨ k = remaining) →
      apiRequestLoop responses attempt remaining =
        (responses (attempt + k), (List.range k).map (fun m => 60 + 30 * (attempt + m))) := by
  intro k
  induction k with
  | zero =>
    intro attempt remaining hk h429 hstop
    cases remaining with
    | zero => simp [apiRequestLoop]
    | succ r =>
      rcases hstop with hs | hs
      · simp only [Nat.add_zero] at hs
        simp [apiRequestLoop, hs]
      · omega
  | succ k' ih =>
    intro attempt remaining hk h429 hstop
    cases remaining with
    | zero => omega
    | succ r =>
      have h0 : (responses attempt).status = 429 := by
        have := h429 0 (by omega)
        simpa using this
      have step : apiRequestLoop responses attempt (r + 1) =
          ((apiRequestLoop responses (attempt + 1) r).1,
           (60 + 30 * attempt) :: (apiRequestLoop responses (attempt + 1) r).2) := by
        simp [apiRequestLoop, h0]
      rw [step]
      have ihres := ih (attempt + 1) r (by omega)
        (fun m hm => by
          have hm' := h429 (m + 1) (by omega)
          have heq : attempt + (m + 1) = attempt + 1 + m := by omega
          rwa [heq] at hm')
        (by
          rcases hstop with hs | hs
          · left
            have heq : attempt + (k' + 1) = attempt + 1 + k' := by omega
            rwa [heq] at hs
          · right; omega)
      rw [ihres]
      have heq1 : attempt + 1 + k' = attempt + (k' + 1) := by omega
      rw [heq1]
      have heq2 : (List.range (k' + 1)).map (fun m => 60 + 30 * (attempt + m)) =
          (60 + 30 * attempt) :: (List.range k').map (fun m => 60 + 30 * (attempt + 1 + m)) := by
        rw [List.range_succ_eq_map]
        simp only [List.map_cons, List.map_map, Nat.add_zero, List.cons.injEq]
        refine ⟨by trivial, ?_⟩
        apply List.map_congr_left
        intro m _
        simp only [Function.comp_apply]
        have heq : attempt + (m + 1) = attempt + 1 + m := by omega
        rw [heq]
      rw [heq2]

/-- The raised error message carries the ticker, the (decimal) status
code and the response body as substrings. -/
theorem errMsg_contains (t : String) (st : Nat) (tx : String) :
    containsSub (errMsg t st tx) t ∧ containsSub (errMsg t st tx) (toString st) ∧
    containsSub (errMsg t st tx) tx := by
  refine ⟨⟨"Error fetching data: ", " - " ++ toString st ++ " - " ++ tx, ?_⟩,
          ⟨"Error fetching data: " ++ t ++ " - ", " - " ++ tx, ?_⟩,
          ⟨"Error fetching data: " ++ t ++ " - " ++ toString st ++ " - ", "", ?_⟩⟩ <;>
    simp [errMsg, String.append_assoc]

/-! ## Further small lemmas feeding the claims -/

/-- A 200 response with an empty page makes the step return the
accumulator. -/
theorem paginateLoop_succ_empty {α : Type} {dateOf : α → String} {oracle : Nat → ApiResponse α}
    {ticker : String} {startDate : Option String} {limit : Nat}
    {fuel i : Nat} {cur : String} {acc : List α}
    (hs : (oracle i).status = 200) (hr : (oracle i).records = []) :
    paginateLoop dateOf oracle ticker startDate limit (fuel + 1) i cur acc = (.ok acc, [cur]) := by
  simp only [paginateLoop]
  simp [hs, hr]

/-- A non-empty page shorter than `limit` satisfies `stopCond`. -/
theorem stopCond_of_short {α : Type} {dateOf : α → String} {startDate : Option String}
    {limit : Nat} {resp : ApiResponse α}
    (hne : resp.records ≠ []) (hlen : resp.records.length < limit) :
    stopCond dateOf startDate limit resp = true := by
  unfold stopCond
  split
  · rfl
  · rcases hr : resp.records with _ | ⟨r, rs⟩
    · rfl
    · rcases startDate with _ | sd
      · rfl
      · rw [hr] at hlen
        simp only [List.length_cons] at hlen
        simp [hlen]

/-- Cursor advance lifted to a collector call. -/
theorem collect_log_get_succ {α : Type} {dateOf : α → String} {oracle : Nat → ApiResponse α}
    {t e : String} {s : Option String} {l : Nat} {c : Cache α} {f j : Nat} {d : String}
    (h : ((collectGeneric dateOf oracle t e s l c f).requests).get? (j + 1) = some d) :
    d = minTrunc dateOf (oracle j).records := by
  cases hh : hitData c (cacheKey t s e l) with
  | some lst =>
    rw [collectGeneric_hit hh] at h
    simp at h
  | none =>
    rw [collectGeneric_miss hh, collectFetch_requests] at h
    simpa using paginateLoop_log_get_succ f 0 e [] j d h

/-- Stop-condition termination lifted to a collector call. -/
theorem collect_stop_len {α : Type} {dateOf : α → String} {oracle : Nat → ApiResponse α}
    {t e : String} {s : Option String} {l : Nat} {c : Cache α} {f j : Nat} {d : String}
    (h : ((collectGeneric dateOf oracle t e s l c f).requests).get? j = some d)
    (hstop : stopCond dateOf s l (oracle j) = true) :
    ((collectGeneric dateOf oracle t e s l c f).requests).length = j + 1 := by
  cases hh : hitData c (cacheKey t s e l) with
  | some lst =>
    rw [collectGeneric_hit hh] at h
    simp at h
  | none =>
    rw [collectGeneric_miss hh, collectFetch_requests] at h ⊢
    exact paginateLoop_stop_len f 0 e [] j d h (by simpa using hstop)

/-- A cache-missing call without `start_date` issues exactly one request. -/
theorem collect_none_one_request {α : Type} {dateOf : α → String} {oracle : Nat → ApiResponse α}
    {t e : String} {l : Nat} {c : Cache α} {f : Nat}
    (hmiss : hitData c (cacheKey t none e l) = none) (hf : 1 ≤ f) :
    ((collectGeneric dateOf oracle t e none l c f).requests).length = 1 := by
  rw [collectGeneric_miss hmiss, collectFetch_requests]
  cases f with
  | zero => omega
  | succ f =>
    rw [(paginateLoop_succ_stop stopCond_none).1]
    rfl

/-- Error propagation lifted to a collector call. -/
theorem collect_err {α : Type} {dateOf : α → String} {oracle : Nat → ApiResponse α}
    {t e : String} {s : Option String} {l : Nat} {c : Cache α} {f j : Nat} {d : String}
    (h : ((collectGeneric dateOf oracle t e s l c f).requests).get? j = some d)
    (hs : (oracle j).status ≠ 200) :
    (collectGeneric dateOf oracle t e s l c f).result =
      .err (errMsg t (oracle j).status (oracle j).text) ∧
    (collectGeneric dateOf oracle t e s l c f).cache = c := by
  cases hh : hitData c (cacheKey t s e l) with
  | some lst =>
    rw [collectGeneric_hit hh] at h
    simp at h
  | none =>
    rw [collectGeneric_miss hh] at h ⊢
    rw [collectFetch_requests] at h
    have hres := paginateLoop_err_prop f 0 e [] j d h (by simpa using hs)
    constructor
    · rw [collectFetch_result, hres]
      simp
    · refine collectFetch_cache_unchanged (fun acc ha => ?_)
      rw [hres] at ha
      simp at ha

/-- A collector call returning a non-empty result leaves the result in
the cache, so an identical second call is a pure cache hit. -/
theorem collect_second_call {α : Type} {dateOf : α → String}
    {oracle oracle2 : Nat → ApiResponse α}
    {t e : String} {s : Option String} {l : Nat} {c : Cache α} {f f2 : Nat} {acc : List α}
    (hres : (collectGeneric dateOf oracle t e s l c f).result = .ok acc) (hne : acc ≠ []) :
    collectGeneric dateOf oracle2 t e s l ((collectGeneric dateOf oracle t e s l c f).cache) f2 =
      ⟨.ok acc, (collectGeneric dateOf oracle t e s l c f).cache, []⟩ := by
  cases hh : hitData c (cacheKey t s e l) with
  | some lst =>
    rw [collectGeneric_hit hh] at hres ⊢
    simp at hres
    subst hres
    exact collectGeneric_hit hh
  | none =>
    rw [collectGeneric_miss hh] at hres ⊢
    have hloop : (paginateLoop dateOf oracle t s l f 0 e []).1 = .ok acc := by
      rw [← collectFetch_result]
      exact hres
    rw [collectFetch_cache_set hloop hne]
    exact collectGeneric_hit (hitData_cacheSet hne)

/-- Termination of the pagination loop, characterized: some fuel
suffices iff some response in the stream satisfies `stopCond`. -/
theorem paginateLoop_term_iff {α : Type} {dateOf : α → String} {oracle : Nat → ApiResponse α}
    {t e : String} {s : Option String} {l : Nat} :
    (∃ fuel, (paginateLoop dateOf oracle t s l fuel 0 e []).1 ≠ .outOfFuel) ↔
    (∃ k, stopCond dateOf s l (oracle k) = true) := by
  constructor
  · rintro ⟨fuel, hf⟩
    by_contra hno
    push_neg at hno
    have hall : ∀ k, stopCond dateOf s l (oracle k) = false :=
      fun k => bool_false_of_not_true (hno k)
    exact hf (paginateLoop_no_stop hall fuel 0 e [])
  · rintro ⟨k, hk⟩
    exact ⟨k + 1, paginateLoop_stop_term k 0 e [] (by simpa using hk)⟩

/-! ## Claim theorems -/

/-- Claim C1: for every pagination run of the Collector
(`get_insider_trades` or `get_company_news`) with a `start_date`
provided, whenever the loop continues past a fetched page, the
upper-bound date parameter of the next request equals the minimum
date-field value (`filing_date` for trades, `date` for news) among the
just-fetched page's records, truncated to the part before the first
`'T'`. -/
theorem claim_C1_cursor_advance :
    (∀ (oracle : Nat → ApiResponse InsiderTrade) (t e sd : String) (l : Nat)
       (c : Cache InsiderTrade) (f j : Nat) (d : String),
       ((get_insider_trades oracle t e (some sd) l c f).requests).get? (j + 1) = some d →
       d = minTrunc (fun tr => tr.filing_date) (oracle j).records) ∧
    (∀ (oracle : Nat → ApiResponse CompanyNews) (t e sd : String) (l : Nat)
       (c : Cache CompanyNews) (f j : Nat) (d : String),
       ((get_company_news oracle t e (some sd) l c f).requests).get? (j + 1) = some d →
       d = minTrunc (fun n => n.date) (oracle j).records) :=
  ⟨fun _ _ _ _ _ _ _ _ _ h => collect_log_get_succ h,
   fun _ _ _ _ _ _ _ _ _ h => collect_log_get_succ h⟩

/-- Witness for C1: a two-page scenario for each collector; the second
request's upper bound is the truncated minimum date of the first page. -/
theorem claim_C1_cursor_advance_witness :
    "2024-01-20" = minTrunc (fun tr => tr.filing_date)
      ((fun i => if i = 0
          then (⟨200, "", [⟨"2024-01-31"⟩, ⟨"2024-01-20T12:00:00"⟩]⟩ : ApiResponse InsiderTrade)
          else ⟨200, "", [⟨"2024-01-05"⟩]⟩) 0).records ∧
    "2024-01-20" = minTrunc (fun n => n.date)
      ((fun i => if i = 0
          then (⟨200, "", [⟨"2024-01-31"⟩, ⟨"2024-01-20T12:00:00"⟩]⟩ : ApiResponse CompanyNews)
          else ⟨200, "", [⟨"2024-01-05"⟩]⟩) 0).records :=
  ⟨claim_C1_cursor_advance.1
     (fun i => if i = 0
        then (⟨200, "", [⟨"2024-01-31"⟩, ⟨"2024-01-20T12:00:00"⟩]⟩ : ApiResponse InsiderTrade)
        else ⟨200, "", [⟨"2024-01-05"⟩]⟩)
     "AAPL" "2024-01-31" "2024-01-01" 2 [] 10 0 "2024-01-20" (by decide),
   claim_C1_cursor_advance.2
     (fun i => if i = 0
        then (⟨200, "", [⟨"2024-01-31"⟩, ⟨"2024-01-20T12:00:00"⟩]⟩ : ApiResponse CompanyNews)
        else ⟨200, "", [⟨"2024-01-05"⟩]⟩)
     "AAPL" "2024-01-31" "2024-01-01" 2 [] 10 0 "2024-01-20" (by decide)⟩

/-- Claim C2: on a cache miss, if `start_date` is `None` exactly one
request is issued regardless of the page's size; and if `start_date` is
provided and a fetched non-empty page has strictly fewer than `limit`
records, the loop stops with that page's request being the last. -/
theorem claim_C2_termination :
    (∀ (oracle : Nat → ApiResponse InsiderTrade) (t e : String) (l : Nat)
       (c : Cache InsiderTrade) (f : Nat),
       hitData c (cacheKey t none e l) = none → 1 ≤ f →
       ((get_insider_trades oracle t e none l c f).requests).length = 1) ∧
    (∀ (oracle : Nat → ApiResponse CompanyNews) (t e : String) (l : Nat)
       (c : Cache CompanyNews) (f : Nat),
       hitData c (cacheKey t none e l) = none → 1 ≤ f →
       ((get_company_news oracle t e none l c f).requests).length = 1) ∧
    (∀ (oracle : Nat → ApiResponse InsiderTrade) (t e sd : String) (l : Nat)
       (c : Cache InsiderTrade) (f j : Nat) (d : String),
       ((get_insider_trades oracle t e (some sd) l c f).requests).get? j = some d →
       (oracle j).records ≠ [] → (oracle j).records.length < l →
       ((get_insider_trades oracle t e (some sd) l c f).requests).length = j + 1) ∧
    (∀ (oracle : Nat → ApiResponse CompanyNews) (t e sd : String) (l : Nat)
       (c : Cache CompanyNews) (f j : Nat) (d : String),
       ((get_company_news oracle t e (some sd) l c f).requests).get? j = some d →
       (oracle j).records ≠ [] → (oracle j).records.length < l →
       ((get_company_news oracle t e (some sd) l c f).requests).length = j + 1) :=
  ⟨fun _ _ _ _ _ _ hm hf => collect_none_one_request hm hf,
   fun _ _ _ _ _ _ hm hf => collect_none_one_request hm hf,
   fun _ _ _ _ _ _ _ _ _ h hne hlen => collect_stop_len h (stopCond_of_short hne hlen),
   fun _ _ _ _ _ _ _ _ _ h hne hlen => collect_stop_len h (stopCond_of_short hne hlen)⟩

/-- Witness for C2: a full-page run with `start_date = None` issues one
request; a short first page with a `start_date` ends the run after one
request. -/
theorem claim_C2_termination_witness :
    ((get_insider_trades (fun _ => ⟨200, "", [⟨"2024-01-31"⟩, ⟨"2024-01-30"⟩]⟩)
        "AAPL" "2024-01-31" none 2 [] 7).requests).length = 1 ∧
    ((get_company_news (fun _ => ⟨200, "", [⟨"2024-01-31"⟩, ⟨"2024-01-30"⟩]⟩)
        "AAPL" "2024-01-31" none 2 [] 7).requests).length = 1 ∧
    ((get_insider_trades (fun _ => ⟨200, "", [⟨"2024-01-30"⟩]⟩)
        "AAPL" "2024-01-31" (some "2024-01-01") 2 [] 7).requests).length = 0 + 1 ∧
    ((get_company_news (fun _ => ⟨200, "", [⟨"2024-01-30"⟩]⟩)
        "AAPL" "2024-01-31" (some "2024-01-01") 2 [] 7).requests).length = 0 + 1 :=
  ⟨claim_C2_termination.1 (fun _ => ⟨200, "", [⟨"2024-01-31"⟩, ⟨"2024-01-30"⟩]⟩)
     "AAPL" "2024-01-31" 2 [] 7 (by decide) (by decide),
   claim_C2_termination.2.1 (fun _ => ⟨200, "", [⟨"2024-01-31"⟩, ⟨"2024-01-30"⟩]⟩)
     "AAPL" "2024-01-31" 2 [] 7 (by decide) (by decide),
   claim_C2_termination.2.2.1 (fun _ => ⟨200, "", [⟨"2024-01-30"⟩]⟩)
     "AAPL" "2024-01-31" "2024-01-01" 2 [] 7 0 "2024-01-31"
     (by decide) (by decide) (by decide),
   claim_C2_termination.2.2.2 (fun _ => ⟨200, "", [⟨"2024-01-30"⟩]⟩)
     "AAPL" "2024-01-31" "2024-01-01" 2 [] 7 0 "2024-01-31"
     (by decide) (by decide) (by decide)⟩

/-- Counterexample to C3 as stated: an API that keeps answering full
200-status pages whose records all carry the date `"2024-06-15"` (above
`start_date = "2024-01-01"`) makes the pagination loop of the Collector
run forever — no amount of fuel completes it, because the cursor never
moves and no stop condition ever holds. -/
theorem claim_C3_counterexample :
    ¬ ∃ fuel,
      (get_insider_trades (fun _ => ⟨200, "", [⟨"2024-06-15"⟩, ⟨"2024-06-15"⟩]⟩)
        "AAPL" "2024-06-15" (some "2024-01-01") 2 [] fuel).result ≠ .outOfFuel := by
  rintro ⟨fuel, hf⟩
  apply hf
  have hall : ∀ k, stopCond (fun tr : InsiderTrade => tr.filing_date) (some "2024-01-01") 2
      ((fun _ : Nat => (⟨200, "", [⟨"2024-06-15"⟩, ⟨"2024-06-15"⟩]⟩ : ApiResponse InsiderTrade)) k)
        = false := by
    intro k
    show stopCond (fun tr : InsiderTrade => tr.filing_date) (some "2024-01-01") 2
      ⟨200, "", [⟨"2024-06-15"⟩, ⟨"2024-06-15"⟩]⟩ = false
    decide
  have hmiss : hitData ([] : Cache InsiderTrade)
      (cacheKey "AAPL" (some "2024-01-01") "2024-06-15" 2) = none := rfl
  unfold get_insider_trades
  rw [collectGeneric_miss hmiss, collectFetch_result]
  exact paginateLoop_no_stop hall fuel 0 "2024-06-15" []

/-- Claim C3 amended: the Collector's pagination loop terminates after
finitely many requests if and only if some response in the stream
satisfies a stopping condition — non-200 status, empty page, absent
`start_date`, short page, or truncated minimum date at or below
`start_date`; a stream of full 200-status pages whose truncated minimum
dates stay above `start_date` makes the loop run forever. -/
theorem claim_C3_termination_iff :
    (∀ (oracle : Nat → ApiResponse InsiderTrade) (t e : String) (s : Option String) (l : Nat),
      (∃ fuel,
        (paginateLoop (fun tr => tr.filing_date) oracle t s l fuel 0 e []).1 ≠ .outOfFuel) ↔
      (∃ k, stopCond (fun tr => tr.filing_date) s l (oracle k) = true)) ∧
    (∀ (oracle : Nat → ApiResponse CompanyNews) (t e : String) (s : Option String) (l : Nat),
      (∃ fuel,
        (paginateLoop (fun n => n.date) oracle t s l fuel 0 e []).1 ≠ .outOfFuel) ↔
      (∃ k, stopCond (fun n => n.date) s l (oracle k) = true)) :=
  ⟨fun _ _ _ _ _ => paginateLoop_term_iff, fun _ _ _ _ _ => paginateLoop_term_iff⟩

/-- Claim C4: with `max_retries = 3`, each 429 attempt that leaves
attempts remaining is followed by exactly one sleep of
`60 + 30 * attempt_index` seconds and one retry: if the first `k`
attempts return 429 and the run stops at attempt `k`, the sleeps are
exactly `60, 90, ...` and attempt `k`'s response is returned; the
`[429, 429, 200]` scenario of the claim is the instance `k = 2`. -/
theorem claim_C4_backoff (responses : Nat → Resp) (k : Nat) (hk : k ≤ 3)
    (h429 : ∀ m, m < k → (responses m).status = 429)
    (hstop : (responses k).status ≠ 429 ∨ k = 3) :
    _make_api_request responses 3 =
      (responses k, (List.range k).map (fun m => 60 + 30 * m)) := by
  have h := apiRequestLoop_spec responses k 0 3 hk
    (fun m hm => by simpa using h429 m hm) (by simpa using hstop)
  unfold _make_api_request
  simpa using h

/-- Witness for C4: the `[429, 429, 200]` response sequence gives exactly
two sleeps, 60s then 90s, and returns the 200 response. -/
theorem claim_C4_backoff_witness :
    _make_api_request (fun i => if i < 2 then ⟨429, "rate limited"⟩ else ⟨200, "payload"⟩) 3 =
      (⟨200, "payload"⟩, [60, 90]) := by
  have h := claim_C4_backoff (fun i => if i < 2 then ⟨429, "rate limited"⟩ else ⟨200, "payload"⟩)
    2 (by decide) (by decide) (by decide)
  rw [h]
  rfl

/-- Claim C8: `_make_api_request` never raises — if the first `k`
attempts return 429 and attempt `k` returns a non-429 status, or `k` is
the final permitted attempt, attempt `k`'s response is returned as-is
with no further retries (exactly `k` backoff sleeps occurred). -/
theorem claim_C8_return_as_is (responses : Nat → Resp) (max_retries k : Nat)
    (hk : k ≤ max_retries)
    (h429 : ∀ m, m < k → (responses m).status = 429)
    (hstop : (responses k).status ≠ 429 ∨ k = max_retries) :
    (_make_api_request responses max_retries).1 = responses k ∧
    (_make_api_request responses max_retries).2.length = k := by
  have h := apiRequestLoop_spec responses k 0 max_retries hk
    (fun m hm => by simpa using h429 m hm) (by simpa using hstop)
  unfold _make_api_request
  rw [h]
  simp

/-- Witness for C8: four consecutive 429 responses under the default
`max_retries = 3` — the final 429 is returned as-is after three sleeps. -/
theorem claim_C8_return_as_is_witness :
    (_make_api_request (fun _ => ⟨429, "throttled"⟩) 3).1 = (fun _ : Nat => (⟨429, "throttled"⟩ : Resp)) 3 ∧
    (_make_api_request (fun _ => ⟨429, "throttled"⟩) 3).2.length = 3 :=
  claim_C8_return_as_is (fun _ => ⟨429, "throttled"⟩) 3 3 (by decide) (by decide) (by decide)

/-- Claim C5: the cache key is ticker, `start_date`-or-`"none"`,
`end_date`, `limit` joined by underscores; a (truthy) hit under exactly
that key returns the deserialized entry immediately with zero requests
and an unchanged cache; and after a call that returned a non-empty
result, an identical second call returns an equal result with zero
additional requests. -/
theorem claim_C5_cache_hit :
    (∀ (t e : String) (sd : String) (l : Nat),
      cacheKey t (some sd) e l = t ++ "_" ++ sd ++ "_" ++ e ++ "_" ++ toString l ∧
      cacheKey t none e l = t ++ "_" ++ "none" ++ "_" ++ e ++ "_" ++ toString l) ∧
    (∀ (oracle : Nat → ApiResponse InsiderTrade) (t e : String) (s : Option String) (l : Nat)
       (c : Cache InsiderTrade) (f : Nat) (lst : List InsiderTrade),
       hitData c (cacheKey t s e l) = some lst →
       get_insider_trades oracle t e s l c f = ⟨.ok lst, c, []⟩) ∧
    (∀ (oracle : Nat → ApiResponse CompanyNews) (t e : String) (s : Option String) (l : Nat)
       (c : Cache CompanyNews) (f : Nat) (lst : List CompanyNews),
       hitData c (cacheKey t s e l) = some lst →
       get_company_news oracle t e s l c f = ⟨.ok lst, c, []⟩) ∧
    (∀ (oracle oracle2 : Nat → ApiResponse InsiderTrade) (t e : String) (s : Option String)
       (l : Nat) (c : Cache InsiderTrade) (f f2 : Nat) (acc : List InsiderTrade),
       (get_insider_trades oracle t e s l c f).result = .ok acc → acc ≠ [] →
       get_insider_trades oracle2 t e s l ((get_insider_trades oracle t e s l c f).cache) f2 =
         ⟨.ok acc, (get_insider_trades oracle t e s l c f).cache, []⟩) ∧
    (∀ (oracle oracle2 : Nat → ApiResponse CompanyNews) (t e : String) (s : Option String)
       (l : Nat) (c : Cache CompanyNews) (f f2 : Nat) (acc : List CompanyNews),
       (get_company_news oracle t e s l c f).result = .ok acc → acc ≠ [] →
       get_company_news oracle2 t e s l ((get_company_news oracle t e s l c f).cache) f2 =
         ⟨.ok acc, (get_company_news oracle t e s l c f).cache, []⟩) :=
  ⟨fun _ _ _ _ => ⟨rfl, rfl⟩,
   fun _ _ _ _ _ _ _ _ hh => collectGeneric_hit hh,
   fun _ _ _ _ _ _ _ _ hh => collectGeneric_hit hh,
   fun _ _ _ _ _ _ _ _ _ _ hres hne => collect_second_call hres hne,
   fun _ _ _ _ _ _ _ _ _ _ hres hne => collect_second_call hres hne⟩

/-- Witness for C5: a pre-populated cache entry is returned verbatim with
no requests, and a fetched non-empty result is a pure hit on the second
call. -/
theorem claim_C5_cache_hit_witness :
    get_insider_trades (fun _ => ⟨200, "", []⟩) "AAPL" "2024-01-31" none 2
        [("AAPL_none_2024-01-31_2", [⟨"2024-01-15"⟩])] 5 =
      ⟨.ok [⟨"2024-01-15"⟩], [("AAPL_none_2024-01-31_2", [⟨"2024-01-15"⟩])], []⟩ ∧
    get_company_news (fun _ => ⟨200, "", []⟩) "AAPL" "2024-01-31" none 2
        ((get_company_news (fun _ => ⟨200, "", [⟨"2024-01-15"⟩]⟩) "AAPL" "2024-01-31" none 2 [] 5).cache) 5 =
      ⟨.ok [⟨"2024-01-15"⟩],
       (get_company_news (fun _ => ⟨200, "", [⟨"2024-01-15"⟩]⟩) "AAPL" "2024-01-31" none 2 [] 5).cache,
       []⟩ :=
  ⟨claim_C5_cache_hit.2.1 (fun _ => ⟨200, "", []⟩) "AAPL" "2024-01-31" none 2
     [("AAPL_none_2024-01-31_2", [⟨"2024-01-15"⟩])] 5 [⟨"2024-01-15"⟩] (by decide),
   claim_C5_cache_hit.2.2.2.2 (fun _ => ⟨200, "", [⟨"2024-01-15"⟩]⟩) (fun _ => ⟨200, "", []⟩)
     "AAPL" "2024-01-31" none 2 [] 5 5 [⟨"2024-01-15"⟩] (by decide) (by decide)⟩

/-- Claim C6: if any issued request of a pagination run returns a
non-200 status, the Collector raises an error whose message contains the
ticker, the status code and the response body, returns no records (the
result is that raised error, not an `ok`), and leaves the cache
unchanged — records accumulated from earlier pages are discarded and
never cached. -/
theorem claim_C6_error_abort :
    (∀ (oracle : Nat → ApiResponse InsiderTrade) (t e : String) (s : Option String) (l : Nat)
       (c : Cache InsiderTrade) (f j : Nat) (d : String),
       ((get_insider_trades oracle t e s l c f).requests).get? j = some d →
       (oracle j).status ≠ 200 →
       (get_insider_trades oracle t e s l c f).result =
         .err (errMsg t (oracle j).status (oracle j).text) ∧
       (get_insider_trades oracle t e s l c f).cache = c ∧
       containsSub (errMsg t (oracle j).status (oracle j).text) t ∧
       containsSub (errMsg t (oracle j).status (oracle j).text) (toString (oracle j).status) ∧
       containsSub (errMsg t (oracle j).status (oracle j).text) (oracle j).text) ∧
    (∀ (oracle : Nat → ApiResponse CompanyNews) (t e : String) (s : Option String) (l : Nat)
       (c : Cache CompanyNews) (f j : Nat) (d : String),
       ((get_company_news oracle t e s l c f).requests).get? j = some d →
       (oracle j).status ≠ 200 →
       (get_company_news oracle t e s l c f).result =
         .err (errMsg t (oracle j).status (oracle j).text) ∧
       (get_company_news oracle t e s l c f).cache = c ∧
       containsSub (errMsg t (oracle j).status (oracle j).text) t ∧
       containsSub (errMsg t (oracle j).status (oracle j).text) (toString (oracle j).status) ∧
       containsSub (errMsg t (oracle j).status (oracle j).text) (oracle j).text) :=
  ⟨fun _ t _ _ _ _ _ _ _ h hs =>
    ⟨(collect_err h hs).1, (collect_err h hs).2,
     (errMsg_contains t _ _).1, (errMsg_contains t _ _).2.1, (errMsg_contains t _ _).2.2⟩,
   fun _ t _ _ _ _ _ _ _ h hs =>
    ⟨(collect_err h hs).1, (collect_err h hs).2,
     (errMsg_contains t _ _).1, (errMsg_contains t _ _).2.1, (errMsg_contains t _ _).2.2⟩⟩

/-- Witness for C6: a 500 response on the second page aborts the run
with the raised message, discarding the first page and writing nothing
to the cache. -/
theorem claim_C6_error_abort_witness :
    (get_insider_trades
        (fun i => if i = 0 then ⟨200, "", [⟨"2024-01-31"⟩, ⟨"2024-01-20"⟩]⟩ else ⟨500, "oops", []⟩)
        "AAPL" "2024-01-31" (some "2024-01-01") 2 [] 9).result =
      .err (errMsg "AAPL"
        ((fun i => if i = 0
            then (⟨200, "", [⟨"2024-01-31"⟩, ⟨"2024-01-20"⟩]⟩ : ApiResponse InsiderTrade)
            else ⟨500, "oops", []⟩) 1).status
        ((fun i => if i = 0
            then (⟨200, "", [⟨"2024-01-31"⟩, ⟨"2024-01-20"⟩]⟩ : ApiResponse InsiderTrade)
            else ⟨500, "oops", []⟩) 1).text) ∧
    (get_insider_trades
        (fun i => if i = 0 then ⟨200, "", [⟨"2024-01-31"⟩, ⟨"2024-01-20"⟩]⟩ else ⟨500, "oops", []⟩)
        "AAPL" "2024-01-31" (some "2024-01-01") 2 [] 9).cache = [] :=
  ⟨(claim_C6_error_abort.1
      (fun i => if i = 0 then ⟨200, "", [⟨"2024-01-31"⟩, ⟨"2024-01-20"⟩]⟩ else ⟨500, "oops", []⟩)
      "AAPL" "2024-01-31" (some "2024-01-01") 2 [] 9 1 "2024-01-20"
      (by decide) (by decide)).1,
   (claim_C6_error_abort.1
      (fun i => if i = 0 then ⟨200, "", [⟨"2024-01-31"⟩, ⟨"2024-01-20"⟩]⟩ else ⟨500, "oops", []⟩)
      "AAPL" "2024-01-31" (some "2024-01-01") 2 [] 9 1 "2024-01-20"
      (by decide) (by decide)).2.1⟩

/-- Claim C7: when the first page is empty (200 status, no records) on a
cache miss, the Collector returns an empty sequence and writes no cache
entry, so a subsequent call with identical parameters performs a network
request again. -/
theorem claim_C7_empty_not_cached :
    (∀ (oracle : Nat → ApiResponse InsiderTrade) (t e : String) (s : Option String) (l : Nat)
       (c : Cache InsiderTrade) (f : Nat),
       hitData c (cacheKey t s e l) = none →
       (oracle 0).status = 200 → (oracle 0).records = [] → 1 ≤ f →
       (get_insider_trades oracle t e s l c f).result = .ok [] ∧
       (get_insider_trades oracle t e s l c f).cache = c ∧
       (∀ (oracle2 : Nat → ApiResponse InsiderTrade) (f2 : Nat), 1 ≤ f2 →
         (get_insider_trades oracle2 t e s l c f2).requests ≠ [])) ∧
    (∀ (oracle : Nat → ApiResponse CompanyNews) (t e : String) (s : Option String) (l : Nat)
       (c : Cache CompanyNews) (f : Nat),
       hitData c (cacheKey t s e l) = none →
       (oracle 0).status = 200 → (oracle 0).records = [] → 1 ≤ f →
       (get_company_news oracle t e s l c f).result = .ok [] ∧
       (get_company_news oracle t e s l c f).cache = c ∧
       (∀ (oracle2 : Nat → ApiResponse CompanyNews) (f2 : Nat), 1 ≤ f2 →
         (get_company_news oracle2 t e s l c f2).requests ≠ [])) := by
  constructor <;>
  · intro oracle t e s l c f hmiss hs hr hf
    refine ⟨?_, ?_, ?_⟩
    · rw [show (f : Nat) = (f - 1) + 1 by omega]
      simp only [get_insider_trades, get_company_news]
      rw [collectGeneric_miss hmiss, collectFetch_result, paginateLoop_succ_empty hs hr]
    · simp only [get_insider_trades, get_company_news]
      rw [collectGeneric_miss hmiss]
      refine collectFetch_cache_unchanged (fun acc ha => ?_)
      rcases hf' : f with _ | f'
      · rw [hf'] at ha
        simp [paginateLoop] at ha
      · rw [hf', paginateLoop_succ_empty hs hr] at ha
        simp at ha
        exact ha
    · intro oracle2 f2 hf2
      simp only [get_insider_trades, get_company_news]
      rw [collectGeneric_miss hmiss, collectFetch_requests]
      exact paginateLoop_log_ne_nil hf2

/-- Witness for C7: an empty first page yields an empty result, an
unchanged (empty) cache, and a repeat call still issues a request. -/
theorem claim_C7_empty_not_cached_witness :
    (get_insider_trades (fun _ => ⟨200, "", []⟩) "AAPL" "2024-01-31" none 5 [] 3).result = .ok [] ∧
    (get_insider_trades (fun _ => ⟨200, "", []⟩) "AAPL" "2024-01-31" none 5 [] 3).cache = [] ∧
    (∀ (oracle2 : Nat → ApiResponse InsiderTrade) (f2 : Nat), 1 ≤ f2 →
      (get_insider_trades oracle2 "AAPL" "2024-01-31" none 5 [] f2).requests ≠ []) :=
  claim_C7_empty_not_cached.1 (fun _ => ⟨200, "", []⟩) "AAPL" "2024-01-31" none 5 [] 3
    (by decide) (by decide) (by decide) (by decide)

/-- Counterexample to C9 as stated: when the broker connection cannot be
established (`connectOk = false`), the `try:` body of `get_hk_prices`
raises the connection error, but the surrounding
`except Exception: return []` converts it into an empty result instead
of raising it to the caller. -/
theorem claim_C9_counterexample :
    get_hk_prices_body (α := String) ⟨false, true, ["row"]⟩ "00700" "2024-01-01" "2024-01-31" [] =
      .error "connect failed" ∧
    get_hk_prices (α := String) ⟨false, true, ["row"]⟩ "00700" "2024-01-01" "2024-01-31" [] =
      ([], []) :=
  ⟨rfl, rfl⟩

/-- Claim C9 amended: on a cache miss, `get_hk_prices` returns an
empty result with an unchanged cache whenever data is unavailable — and
likewise when the broker connection cannot be established: the
connection failure raises inside the `try:` body, but the fetch
function's catch-all converts it into an empty result, so no fetch call
raises. -/
theorem claim_C9_hk_empty (α : Type) (env : FutuEnv α) (t s e : String) (c : Cache α)
    (hmiss : hitData c ("hk_" ++ t ++ "_" ++ s ++ "_" ++ e) = none)
    (hcase : env.connectOk = false ∨ env.klineRet = false ∨ env.klineRows = []) :
    get_hk_prices env t s e c = ([], c) := by
  obtain ⟨co, kr, rows⟩ := env
  unfold get_hk_prices get_hk_prices_body
  simp only [hmiss]
  rcases co <;> rcases kr <;> simp_all

/-- Witness for C9: a failing k-line fetch (`ret != RET_OK`) yields an
empty result and an unchanged cache. -/
theorem claim_C9_hk_empty_witness :
    get_hk_prices (α := String) ⟨true, false, ["row"]⟩ "00700" "2024-01-01" "2024-01-31" [] =
      ([], []) :=
  claim_C9_hk_empty String ⟨true, false, ["row"]⟩ "00700" "2024-01-01" "2024-01-31" []
    (by decide) (Or.inr (Or.inl rfl))

/-- Claim C10: `get_hk_market_cap` returns `None` on every input, and
for every Hong-Kong-classified ticker, with the futu module available,
`get_market_cap` returns `None` unconditionally. -/
theorem claim_C10_hk_market_cap :
    (∀ (ticker end_date : String), get_hk_market_cap ticker end_date = none) ∧
    (∀ (usFetch : String → String → Option Float) (ticker end_date : String),
      _is_hk_stock ticker = true →
      get_market_cap true usFetch ticker end_date = .ok none) := by
  refine ⟨fun _ _ => rfl, fun usFetch t e h => ?_⟩
  unfold get_market_cap
  simp [h, get_hk_market_cap]

/-- Witness for C10: the Hong-Kong ticker "00700" yields `None` even
with a US-path oracle that would return a value. -/
theorem claim_C10_hk_market_cap_witness :
    get_market_cap true (fun _ _ => some 1.0) "00700" "2024-01-31" = .ok none :=
  claim_C10_hk_market_cap.2 (fun _ _ => some 1.0) "00700" "2024-01-31" (by decide)
